import Mathlib

/-!
Verification development for the bittada media-retrieval pipeline.

Shallow embedding of the core of the repository:
  * `src/userbot/client.py` — format negotiation (`find_matching_format_callback`),
    response polling (`_wait_for_video_response`, `_wait_for_twitter_response`),
    platform processing (`process_instagram_url`, `process_facebook_url`,
    `process_twitter_url`) and session recovery (`_recover_session`);
  * `src/bot/handlers.py` — the processing queue worker (`process_queue_worker`)
    and the cache-first submission flow (`handle_message_with_url`);
  * `src/db/database.py` — the video cache table operations (`add_video`,
    `get_video`, `get_video_count`, `get_mandatory_channels`).

Python strings are modelled as Lean `String`; machine integers are `Nat`
(no wraparound is relevant anywhere in this code); Python exceptions are
modelled by explicit result types (`NetRes`, `Except`), and every
`try/except` of the source appears as an explicit `match` on those results.
-/

namespace Bittada

/-! ### String helpers (Python `str.lower`, substring test, `startswith`) -/

/-- Python `s.lower()` viewed as a list of characters. -/
def lowerStr (s : String) : List Char := s.toList.map Char.toLower

/-- Python substring test `pat in s` on character lists. -/
def containsSub (pat : List Char) : List Char → Bool
  | [] => pat.isEmpty
  | c :: rest => pat.isPrefixOf (c :: rest) || containsSub pat rest

/-- Python `s.startswith(p)`. -/
def startsWithStr (p : String) (s : String) : Bool :=
  p.toList.isPrefixOf s.toList

/-- Numeric value of a list of ASCII digit characters (leading fold, base 10). -/
def natOfDigits (l : List Char) : Nat :=
  l.foldl (fun n c => 10 * n + (c.toNat - 48)) 0

/-- Embedding of `re.search(r"(\d{3,4})p?", text)`: scan left to right; at the
first position where at least three consecutive digits start, greedily take up
to four of them and return their numeric value; otherwise no match. -/
def reSearchRes34 : List Char → Option Nat
  | [] => none
  | c :: rest =>
    let run := (c :: rest).takeWhile Char.isDigit
    if 3 ≤ run.length then some (natOfDigits (run.take 4))
    else reSearchRes34 rest

/-! ### Format negotiation — `find_matching_format_callback` (client.py 1082-1165)

A responder-offered inline button carries a visible label and an optional
callback token (`button.data`); a missing or empty token is modelled as
`none`, matching the Python guard `hasattr(button, "data") and button.data`.
The inline keyboard is the list of button rows. -/

structure Button where
  text : String
  data : Option String
deriving DecidableEq, Repr

abbrev Keyboard := List (List Button)

/-- The `format_patterns` dictionary (client.py 1098-1103). The last `mp3`
keyword is the literal (mojibake) byte sequence from the source. -/
def format_patterns (fmt : String) : List String :=
  if fmt = "360p" then ["360", "360p"]
  else if fmt = "480p" then ["480", "480p"]
  else if fmt = "720p" then ["720", "720p", "hd"]
  else if fmt = "mp3" then ["mp3", "audio", "향쒬햨"]
  else []

/-- Does any pattern occur (case-insensitively) in the button label?
Python: `pattern.lower() in button.text.lower()`. -/
def anyPatternMatches (patterns : List String) (btnText : String) : Bool :=
  patterns.any (fun p => containsSub (lowerStr p) (lowerStr btnText))

/-- Stage 1 of the matcher (client.py 1111-1122): first button, in row-major
order, with a callback token whose label contains one of the keywords. -/
def findKeywordBtn (patterns : List String) : List Button → Option String
  | [] => none
  | b :: bs =>
    match b.data with
    | none => findKeywordBtn patterns bs
    | some d =>
      if anyPatternMatches patterns b.text then some d
      else findKeywordBtn patterns bs

/-- The audio fallback word list (client.py 1131), literal bytes from source. -/
def audioFallbackWords : List String := ["햟혞햢햦", "audio", "향쒬햨", "mp3"]

/-- Does the (lowered) label contain one of the audio fallback words?
Python: `any(word in button_text for word in [...])`. -/
def audioWordMatches (btnText : String) : Bool :=
  audioFallbackWords.any (fun w => containsSub w.toList (lowerStr btnText))

/-- MP3 fallback (client.py 1125-1134): first button with a callback token
whose label contains an audio keyword. -/
def audioFallbackBtn : List Button → Option String
  | [] => none
  | b :: bs =>
    match b.data with
    | none => audioFallbackBtn bs
    | some d =>
      if audioWordMatches b.text then some d
      else audioFallbackBtn bs

/-- Absolute difference on naturals — Python `abs(button_res - target_res)`. -/
def natDist (a b : Nat) : Nat := max a b - min a b

/-- Closest-resolution accumulator loop (client.py 1136-1153). Carries the
current best `(closest_button, closest_diff)`; a strictly smaller difference
replaces the best (ties keep the earlier button). -/
def closestResBtn (target : Nat) : List Button → Option (Button × Nat) → Option (Button × Nat)
  | [], best => best
  | b :: bs, best =>
    match b.data with
    | none => closestResBtn target bs best
    | some _ =>
      match reSearchRes34 (lowerStr b.text) with
      | none => closestResBtn target bs best
      | some r =>
        let d := natDist r target
        match best with
        | none => closestResBtn target bs (some (b, d))
        | some (b0, d0) =>
          if d < d0 then closestResBtn target bs (some (b, d))
          else closestResBtn target bs (some (b0, d0))

/-- Python `int(desired_format.replace("p", ""))`: drop every `p`, then parse;
a parse failure raises `ValueError`, caught by the outer handler (→ `none`). -/
def parseResTarget (desired : String) : Option Nat :=
  let l := (desired.toList.filter (fun c => c ≠ 'p'))
  if l.isEmpty then none
  else if l.all Char.isDigit then some (natOfDigits l) else none

/-- Embedding of `find_matching_format_callback` (client.py 1082-1165).
The keyboard rows are traversed row-major exactly as the nested Python loops
do, so the rows are flattened once here. -/
def find_matching_format_callback (kb : Keyboard) (desired : String) : Option String :=
  let patterns := format_patterns (String.mk (lowerStr desired))
  if patterns.isEmpty then none
  else
    match findKeywordBtn patterns kb.flatten with
    | some d => some d
    | none =>
      if String.mk (lowerStr desired) = "mp3" then
        audioFallbackBtn kb.flatten
      else
        match parseResTarget desired with
        | none => none
        | some target =>
          match closestResBtn target kb.flatten none with
          | some (b, _) => b.data
          | none => none

/-- The three-offer keyboard of the specification example: labels 360/480/720
with distinct callback tokens. -/
def demoKb : Keyboard :=
  [[⟨"360", some "cb360"⟩, ⟨"480", some "cb480"⟩, ⟨"720", some "cb720"⟩]]

/-! ### Characterization lemmas for the format matcher -/

theorem findKeywordBtn_eq_none (ps : List String) (l : List Button) :
    findKeywordBtn ps l = none ↔
      ∀ b ∈ l, ∀ d, b.data = some d → anyPatternMatches ps b.text = false := by
  induction l with
  | nil => simp [findKeywordBtn]
  | cons b bs ih =>
    cases hb : b.data with
    | none => simp [findKeywordBtn, hb, ih]
    | some d =>
      by_cases hm : anyPatternMatches ps b.text <;>
        simp [findKeywordBtn, hb, hm, ih]

theorem findKeywordBtn_eq_some (ps : List String) (l : List Button) (d : String) :
    findKeywordBtn ps l = some d →
      ∃ b ∈ l, b.data = some d ∧ anyPatternMatches ps b.text = true := by
  induction l with
  | nil => simp [findKeywordBtn]
  | cons b bs ih =>
    cases hb : b.data with
    | none =>
      intro h
      simp only [findKeywordBtn, hb] at h
      obtain ⟨b', hb', hprops⟩ := ih h
      exact ⟨b', List.mem_cons_of_mem _ hb', hprops⟩
    | some d0 =>
      by_cases hm : anyPatternMatches ps b.text
      · intro h
        simp only [findKeywordBtn, hb, hm, if_pos] at h
        exact ⟨b, List.mem_cons_self _ _, by simp [hb, h.symm, hm]⟩
      · intro h
        simp only [findKeywordBtn, hb, hm, if_neg] at h
        obtain ⟨b', hb', hprops⟩ := ih h
        exact ⟨b', List.mem_cons_of_mem _ hb', hprops⟩

theorem audioFallbackBtn_eq_none (l : List Button) :
    audioFallbackBtn l = none ↔
      ∀ b ∈ l, ∀ d, b.data = some d → audioWordMatches b.text = false := by
  induction l with
  | nil => simp [audioFallbackBtn]
  | cons b bs ih =>
    cases hb : b.data with
    | none => simp [audioFallbackBtn, hb, ih]
    | some d =>
      by_cases hm : audioWordMatches b.text <;>
        simp [audioFallbackBtn, hb, hm, ih]

theorem audioFallbackBtn_eq_some (l : List Button) (d : String) :
    audioFallbackBtn l = some d →
      ∃ b ∈ l, b.data = some d ∧ audioWordMatches b.text = true := by
  induction l with
  | nil => simp [audioFallbackBtn]
  | cons b bs ih =>
    cases hb : b.data with
    | none =>
      intro h
      simp only [audioFallbackBtn, hb] at h
      obtain ⟨b', hb', hprops⟩ := ih h
      exact ⟨b', List.mem_cons_of_mem _ hb', hprops⟩
    | some d0 =>
      by_cases hm : audioWordMatches b.text
      · intro h
        simp only [audioFallbackBtn, hb, hm, if_pos] at h
        exact ⟨b, List.mem_cons_self _ _, by simp [hb, h.symm, hm]⟩
      · intro h
        simp only [audioFallbackBtn, hb, hm, if_neg] at h
        obtain ⟨b', hb', hprops⟩ := ih h
        exact ⟨b', List.mem_cons_of_mem _ hb', hprops⟩

theorem closestResBtn_acc_some (t : Nat) (l : List Button) (x : Button × Nat) :
    ∃ y, closestResBtn t l (some x) = some y := by
  induction l generalizing x with
  | nil => exact ⟨x, rfl⟩
  | cons b bs ih =>
    cases hb : b.data with
    | none => simpa [closestResBtn, hb] using ih x
    | some d =>
      cases hr : reSearchRes34 (lowerStr b.text) with
      | none => simpa [closestResBtn, hb, hr] using ih x
      | some r =>
        by_cases hlt : natDist r t < x.2
        · simpa [closestResBtn, hb, hr, hlt] using ih (b, natDist r t)
        · simpa [closestResBtn, hb, hr, hlt] using ih x

theorem closestResBtn_eq_none (t : Nat) (l : List Button) :
    closestResBtn t l none = none ↔
      ∀ b ∈ l, ∀ d, b.data = some d → reSearchRes34 (lowerStr b.text) = none := by
  induction l with
  | nil => simp [closestResBtn]
  | cons b bs ih =>
    cases hb : b.data with
    | none => simp [closestResBtn, hb, ih]
    | some d =>
      cases hr : reSearchRes34 (lowerStr b.text) with
      | none => simp [closestResBtn, hb, hr, ih]
      | some r =>
        constructor
        · intro h
          obtain ⟨y, hy⟩ := closestResBtn_acc_some t bs (b, natDist r t)
          simp only [closestResBtn, hb, hr] at h
          rw [hy] at h
          exact absurd h (by simp)
        · intro h
          exact absurd hr (by simp [h b (List.mem_cons_self _ _) d hb])

/-- Soundness of the closest-resolution accumulator loop: the returned pair is
either the initial accumulator or a button of the list with a parsed
resolution, its recorded difference is correct, it is minimal over the list,
and it never exceeds the accumulator difference. -/
theorem closestResBtn_sound (t : Nat) (l : List Button) :
    ∀ (acc : Option (Button × Nat)) (b : Button) (d : Nat),
      closestResBtn t l acc = some (b, d) →
      (acc = some (b, d) ∨
        (b ∈ l ∧ (∃ dd, b.data = some dd) ∧
          ∃ r, reSearchRes34 (lowerStr b.text) = some r ∧ d = natDist r t)) ∧
      (∀ b' ∈ l, ∀ d', b'.data = some d' →
        ∀ r', reSearchRes34 (lowerStr b'.text) = some r' → d ≤ natDist r' t) ∧
      (∀ p : Button × Nat, acc = some p → d ≤ p.2) := by
  induction l with
  | nil =>
    intro acc b d h
    simp only [closestResBtn] at h
    refine ⟨Or.inl h, by simp, ?_⟩
    intro p hp
    rw [h] at hp
    cases hp
    exact le_refl _
  | cons x xs ih =>
    intro acc b d h
    cases hx : x.data with
    | none =>
      simp only [closestResBtn, hx] at h
      obtain ⟨h1, h2, h3⟩ := ih acc b d h
      refine ⟨?_, ?_, h3⟩
      · rcases h1 with h1 | ⟨hb, hr⟩
        · exact Or.inl h1
        · exact Or.inr ⟨List.mem_cons_of_mem _ hb, hr⟩
      · intro b' hb' d' hd' r' hr'
        rcases List.mem_cons.mp hb' with rfl | hb'
        · rw [hx] at hd'; cases hd'
        · exact h2 b' hb' d' hd' r' hr'
    | some dx =>
      cases hr : reSearchRes34 (lowerStr x.text) with
      | none =>
        simp only [closestResBtn, hx, hr] at h
        obtain ⟨h1, h2, h3⟩ := ih acc b d h
        refine ⟨?_, ?_, h3⟩
        · rcases h1 with h1 | ⟨hb, hrr⟩
          · exact Or.inl h1
          · exact Or.inr ⟨List.mem_cons_of_mem _ hb, hrr⟩
        · intro b' hb' d' hd' r' hr'
          rcases List.mem_cons.mp hb' with rfl | hb'
          · rw [hr] at hr'; cases hr'
          · exact h2 b' hb' d' hd' r' hr'
      | some r =>
        cases acc with
        | none =>
          simp only [closestResBtn, hx, hr] at h
          obtain ⟨h1, h2, h3⟩ := ih (some (x, natDist r t)) b d h
          have hdle : d ≤ natDist r t := h3 (x, natDist r t) rfl
          refine ⟨?_, ?_, by intro p hp; cases hp⟩
          · rcases h1 with h1 | ⟨hb, hrr⟩
            · cases h1
              exact Or.inr ⟨List.mem_cons_self _ _, ⟨dx, hx⟩, r, hr, rfl⟩
            · exact Or.inr ⟨List.mem_cons_of_mem _ hb, hrr⟩
          · intro b' hb' d' hd' r' hr'
            rcases List.mem_cons.mp hb' with rfl | hb'
            · rw [hr] at hr'
              cases hr'
              exact hdle
            · exact h2 b' hb' d' hd' r' hr'
        | some p0 =>
          obtain ⟨b0, d0⟩ := p0
          by_cases hlt : natDist r t < d0
          · simp only [closestResBtn, hx, hr, hlt, if_pos] at h
            obtain ⟨h1, h2, h3⟩ := ih (some (x, natDist r t)) b d h
            have hdle : d ≤ natDist r t := h3 (x, natDist r t) rfl
            refine ⟨?_, ?_, ?_⟩
            · rcases h1 with h1 | ⟨hb, hrr⟩
              · cases h1
                exact Or.inr ⟨List.mem_cons_self _ _, ⟨dx, hx⟩, r, hr, rfl⟩
              · exact Or.inr ⟨List.mem_cons_of_mem _ hb, hrr⟩
            · intro b' hb' d' hd' r' hr'
              rcases List.mem_cons.mp hb' with rfl | hb'
              · rw [hr] at hr'
                cases hr'
                exact hdle
              · exact h2 b' hb' d' hd' r' hr'
            · intro p hp
              cases hp
              exact le_trans hdle (le_of_lt hlt)
          · simp only [closestResBtn, hx, hr, hlt, if_neg] at h
            obtain ⟨h1, h2, h3⟩ := ih (some (b0, d0)) b d h
            have hdle : d ≤ d0 := h3 (b0, d0) rfl
            refine ⟨?_, ?_, ?_⟩
            · rcases h1 with h1 | ⟨hb, hrr⟩
              · exact Or.inl h1
              · exact Or.inr ⟨List.mem_cons_of_mem _ hb, hrr⟩
            · intro b' hb' d' hd' r' hr'
              rcases List.mem_cons.mp hb' with rfl | hb'
              · rw [hr] at hr'
                cases hr'
                exact le_trans hdle (le_of_not_lt hlt)
              · exact h2 b' hb' d' hd' r' hr'
            · intro p hp
              cases hp
              exact hdle

/-! ### Specification-level predicates for the matching order (claim C6).
These predicates restate the claimed selection rules in the words of the
specification, to be compared with the source embedding above. -/

/-- No button with a callback token keyword-matches the desired format. -/
def NoKeywordMatch (fmt : String) (kb : Keyboard) : Prop :=
  ∀ b ∈ kb.flatten, ∀ d, b.data = some d →
    anyPatternMatches (format_patterns fmt) b.text = false

/-- The returned token belongs to a button whose label keyword-matches. -/
def KeywordChoice (fmt : String) (kb : Keyboard) (d : String) : Prop :=
  ∃ b ∈ kb.flatten, b.data = some d ∧
    anyPatternMatches (format_patterns fmt) b.text = true

/-- The returned token belongs to a button with a parsed 3-4 digit resolution
whose distance to the target is minimal over all parseable offers. -/
def ClosestChoice (t : Nat) (kb : Keyboard) (d : String) : Prop :=
  ∃ b ∈ kb.flatten, b.data = some d ∧
    ∃ r, reSearchRes34 (lowerStr b.text) = some r ∧
      ∀ b' ∈ kb.flatten, ∀ d', b'.data = some d' →
        ∀ r', reSearchRes34 (lowerStr b'.text) = some r' →
          natDist r t ≤ natDist r' t

/-- No button with a callback token has a parseable 3-4 digit resolution. -/
def NoResParse (kb : Keyboard) : Prop :=
  ∀ b ∈ kb.flatten, ∀ d, b.data = some d →
    reSearchRes34 (lowerStr b.text) = none

/-- The returned token belongs to a button carrying an audio keyword. -/
def AudioChoice (kb : Keyboard) (d : String) : Prop :=
  ∃ b ∈ kb.flatten, b.data = some d ∧ audioWordMatches b.text = true

/-- No button with a callback token carries an audio keyword. -/
def NoAudioMatch (kb : Keyboard) : Prop :=
  ∀ b ∈ kb.flatten, ∀ d, b.data = some d → audioWordMatches b.text = false

/-- The claimed matching order for a resolution format with target `t`:
`none` exactly when neither rule applies, and a returned token comes from
rule (1), or from rule (2) when rule (1) found nothing. -/
def ResFormatSpec (fmt : String) (t : Nat) (kb : Keyboard) : Prop :=
  (find_matching_format_callback kb fmt = none ↔
    NoKeywordMatch fmt kb ∧ NoResParse kb) ∧
  ∀ d, find_matching_format_callback kb fmt = some d →
    KeywordChoice fmt kb d ∨ (NoKeywordMatch fmt kb ∧ ClosestChoice t kb d)

/-- The claimed matching order for the audio-only format. -/
def Mp3FormatSpec (kb : Keyboard) : Prop :=
  (find_matching_format_callback kb "mp3" = none ↔
    NoKeywordMatch "mp3" kb ∧ NoAudioMatch kb) ∧
  ∀ d, find_matching_format_callback kb "mp3" = some d →
    KeywordChoice "mp3" kb d ∨ (NoKeywordMatch "mp3" kb ∧ AudioChoice kb d)

theorem resFormatSpec_of_unfold (fmt : String) (t : Nat) (kb : Keyboard)
    (hunf : find_matching_format_callback kb fmt =
      (match findKeywordBtn (format_patterns fmt) kb.flatten with
       | some d => some d
       | none =>
         match closestResBtn t kb.flatten none with
         | some (b, _) => b.data
         | none => none)) :
    ResFormatSpec fmt t kb := by
  constructor
  · cases hk : findKeywordBtn (format_patterns fmt) kb.flatten with
    | some d =>
      rw [hunf, hk]
      constructor
      · intro h; cases h
      · rintro ⟨hno, -⟩
        obtain ⟨b, hbmem, hbd, hbm⟩ := findKeywordBtn_eq_some _ _ _ hk
        exact absurd (hno b hbmem _ hbd) (by simp [hbm])
    | none =>
      have hno : NoKeywordMatch fmt kb := (findKeywordBtn_eq_none _ _).mp hk
      cases hc : closestResBtn t kb.flatten none with
      | none =>
        rw [hunf, hk, hc]
        exact ⟨fun _ => ⟨hno, (closestResBtn_eq_none t _).mp hc⟩, fun _ => rfl⟩
      | some p =>
        obtain ⟨b, dd⟩ := p
        obtain ⟨h1, h2, h3⟩ := closestResBtn_sound t kb.flatten none b dd hc
        rcases h1 with h1 | ⟨hbmem, ⟨d0, hbd⟩, r, hr, hdd⟩
        · cases h1
        rw [hunf, hk, hc]
        constructor
        · intro h
          dsimp only at h
          rw [hbd] at h
          cases h
        · rintro ⟨-, hnp⟩
          exact absurd (hnp b hbmem _ hbd) (by simp [hr])
  · intro d hd
    rw [hunf] at hd
    cases hk : findKeywordBtn (format_patterns fmt) kb.flatten with
    | some d1 =>
      rw [hk] at hd
      dsimp only at hd
      obtain rfl : d1 = d := Option.some.inj hd
      left
      obtain ⟨b, hbmem, hbd, hbm⟩ := findKeywordBtn_eq_some _ _ _ hk
      exact ⟨b, hbmem, hbd, hbm⟩
    | none =>
      rw [hk] at hd
      have hno := (findKeywordBtn_eq_none _ _).mp hk
      cases hc : closestResBtn t kb.flatten none with
      | none =>
        rw [hc] at hd
        cases hd
      | some p =>
        obtain ⟨b, dd⟩ := p
        rw [hc] at hd
        dsimp only at hd
        obtain ⟨h1, h2, h3⟩ := closestResBtn_sound t kb.flatten none b dd hc
        rcases h1 with h1 | ⟨hbmem, -, r, hr, hdd⟩
        · cases h1
        right
        refine ⟨hno, b, hbmem, hd, r, hr, ?_⟩
        intro b' hb' d' hd' r' hr'
        have hle := h2 b' hb' d' hd' r' hr'
        rw [hdd] at hle
        exact hle

theorem mp3FormatSpec_of_unfold (kb : Keyboard)
    (hunf : find_matching_format_callback kb "mp3" =
      (match findKeywordBtn (format_patterns "mp3") kb.flatten with
       | some d => some d
       | none => audioFallbackBtn kb.flatten)) :
    Mp3FormatSpec kb := by
  constructor
  · cases hk : findKeywordBtn (format_patterns "mp3") kb.flatten with
    | some d =>
      rw [hunf, hk]
      constructor
      · intro h; cases h
      · rintro ⟨hno, -⟩
        obtain ⟨b, hbmem, hbd, hbm⟩ := findKeywordBtn_eq_some _ _ _ hk
        exact absurd (hno b hbmem _ hbd) (by simp [hbm])
    | none =>
      have hno : NoKeywordMatch "mp3" kb := (findKeywordBtn_eq_none _ _).mp hk
      rw [hunf, hk]
      dsimp only
      rw [audioFallbackBtn_eq_none]
      exact ⟨fun h => ⟨hno, h⟩, fun h => h.2⟩
  · intro d hd
    rw [hunf] at hd
    cases hk : findKeywordBtn (format_patterns "mp3") kb.flatten with
    | some d1 =>
      rw [hk] at hd
      dsimp only at hd
      obtain rfl : d1 = d := Option.some.inj hd
      left
      obtain ⟨b, hbmem, hbd, hbm⟩ := findKeywordBtn_eq_some _ _ _ hk
      exact ⟨b, hbmem, hbd, hbm⟩
    | none =>
      rw [hk] at hd
      dsimp only at hd
      right
      have hno := (findKeywordBtn_eq_none _ _).mp hk
      obtain ⟨b, hbmem, hbd, hbm⟩ := audioFallbackBtn_eq_some _ _ hd
      exact ⟨hno, b, hbmem, hbd, hbm⟩

/-- C5 counterexample: with offers labelled 360/480/720, desired format
`500p` does not select the token of the `360` offer — `500p` is not a key of
`format_patterns`, so `find_matching_format_callback` returns `none` before
the closest-resolution fallback can run. -/
theorem fmt500p_counterexample :
    find_matching_format_callback demoKb "500p" = none ∧
      find_matching_format_callback demoKb "500p" ≠ some "cb360" := by
  exact ⟨by decide, by decide⟩

/-- C5 (amended): with offers labelled 360/480/720, desired `480p` selects the
token of the `480` offer by exact keyword match; desired `500p` is not a
supported format key, so the selector returns `none` (the closest-resolution
fallback applies only to the supported resolution formats). -/
theorem fmt480p_exact_500p_none :
    find_matching_format_callback demoKb "480p" = some "cb480" ∧
      find_matching_format_callback demoKb "500p" = none := by
  exact ⟨by decide, by decide⟩

/-- C6: for every supported desired format and every keyboard of offers, the
selector follows the claimed order — (1) case-insensitive keyword match
against the per-format keyword set; (2) for resolution formats with no
keyword match, the offer whose parsed 3-4 digit resolution is closest to the
target; (3) for the audio format, fallback to a label with an audio keyword;
and an explicit `none` exactly when no rule matches. -/
theorem format_selection_follows_order (kb : Keyboard) :
    ResFormatSpec "360p" 360 kb ∧ ResFormatSpec "480p" 480 kb ∧
      ResFormatSpec "720p" 720 kb ∧ Mp3FormatSpec kb :=
  ⟨resFormatSpec_of_unfold "360p" 360 kb rfl,
   resFormatSpec_of_unfold "480p" 480 kb rfl,
   resFormatSpec_of_unfold "720p" 720 kb rfl,
   mp3FormatSpec_of_unfold kb rfl⟩

/-- C6 witness: the matching-order theorem instantiated at the concrete
three-offer keyboard. -/
theorem format_selection_follows_order_witness :
    ResFormatSpec "360p" 360 demoKb ∧ ResFormatSpec "480p" 480 demoKb ∧
      ResFormatSpec "720p" 720 demoKb ∧ Mp3FormatSpec demoKb :=
  format_selection_follows_order demoKb

/-! ### Response polling — `_wait_for_video_response` (client.py 742-819) and
`_wait_for_twitter_response` (client.py 564-616)

A conversation message is its id, its media payload and its text. Telethon
message attributes `video` / `photo` / `audio` / `document` (with a mime
type) / `MessageMediaWebPage` / no media are modelled by `MediaKind`.
A Telegram client call either returns a value or raises: `NetRes` models
`FloodWaitError`, `AuthKeyDuplicatedError` and any other exception. -/

inductive MediaKind where
  | video
  | photo
  | audio
  | doc (mime : String)
  | webPage
  | noMedia
deriving DecidableEq, Repr

structure TMsg where
  id : Nat
  media : MediaKind
  text : String
deriving DecidableEq, Repr

/-- Python `message.video or (message.document and mime.startswith("video/"))`. -/
def isVideoMsg (m : TMsg) : Bool :=
  match m.media with
  | .video => true
  | .doc mime => startsWithStr "video/" mime
  | _ => false

/-- Python `message.photo or (message.document and mime.startswith("image/"))`. -/
def isPhotoMsg (m : TMsg) : Bool :=
  match m.media with
  | .photo => true
  | .doc mime => startsWithStr "image/" mime
  | _ => false

/-- Python `message.audio or (message.document and mime.startswith("audio/"))`. -/
def isAudioMsg (m : TMsg) : Bool :=
  match m.media with
  | .audio => true
  | .doc mime => startsWithStr "audio/" mime
  | _ => false

/-- Outcome of one Telegram client call: normal value, or one of the
exceptions the source distinguishes. -/
inductive NetRes (α : Type) where
  | ok (val : α)
  | authDup
  | floodWait (secs : Nat)
  | err (msg : String)
deriving DecidableEq, Repr

/-- The media filter of `_wait_for_video_response` (client.py 763-787): only
messages with id strictly above the watermark; for the YouTube responder only
video or audio qualify (thumbnails skipped), otherwise video, photo or audio. -/
def qualifiesVideoWait (isYoutube : Bool) (wm : Nat) (m : TMsg) : Bool :=
  decide (wm < m.id) &&
    (if isYoutube then isVideoMsg m || isAudioMsg m
     else isVideoMsg m || isPhotoMsg m || isAudioMsg m)

/-- `media_messages.sort(key=lambda m: m.id)` — insertion sort by id. -/
def insertById (m : TMsg) : List TMsg → List TMsg
  | [] => [m]
  | x :: xs => if m.id ≤ x.id then m :: x :: xs else x :: insertById m xs

def sortById : List TMsg → List TMsg
  | [] => []
  | x :: xs => insertById x (sortById xs)

theorem mem_insertById {a m : TMsg} {l : List TMsg} :
    a ∈ insertById m l ↔ a = m ∨ a ∈ l := by
  induction l with
  | nil => simp [insertById]
  | cons x xs ih =>
    by_cases h : m.id ≤ x.id
    · simp [insertById, h]
    · simp [insertById, h, ih]
      tauto

theorem mem_sortById {a : TMsg} {l : List TMsg} : a ∈ sortById l ↔ a ∈ l := by
  induction l with
  | nil => simp [sortById]
  | cons x xs ih => simp [sortById, mem_insertById, ih]

/-- Result shape of the pollers: with `return_all` the whole sorted media
list, otherwise only the latest (largest-id) message. -/
inductive WaitOut where
  | all (msgs : List TMsg)
  | one (m : TMsg)
deriving DecidableEq, Repr

/-- The polling loop of `_wait_for_video_response`. Each iteration `k` runs at
elapsed time `3 * k` seconds (the loop body is a suspension point followed by
`asyncio.sleep(3)`); `env k` is what `get_messages` produces at iteration `k`,
and any exception it raises is caught and the loop continues — exactly the
`try/except` of the source. The fuel argument is the remaining iteration
budget; at the top level it is chosen large enough that running out of fuel
coincides with the `while` condition `elapsed < max_wait_time` turning false,
so the fuel-0 result equals the timeout result `(None, elapsed)`. -/
def waitVideoGo (env : Nat → NetRes (List TMsg)) (isYoutube returnAll : Bool)
    (wm T : Nat) : Nat → Nat → Option WaitOut × Nat
  | k, 0 => (none, 3 * k)
  | k, fuel + 1 =>
    if 3 * k < T then
      match env k with
      | .ok msgs =>
        match sortById (msgs.filter (qualifiesVideoWait isYoutube wm)) with
        | [] => waitVideoGo env isYoutube returnAll wm T (k + 1) fuel
        | m :: rest =>
          (some (if returnAll then .all (m :: rest)
                 else .one ((m :: rest).getLast (List.cons_ne_nil m rest))),
           3 * k)
      | _ => waitVideoGo env isYoutube returnAll wm T (k + 1) fuel
    else (none, 3 * k)

/-- Embedding of `_wait_for_video_response` (client.py 742-819): returns the
poll result and the elapsed time at which it returned. -/
def wait_for_video_response (env : Nat → NetRes (List TMsg))
    (isYoutube returnAll : Bool) (wm T : Nat) : Option WaitOut × Nat :=
  waitVideoGo env isYoutube returnAll wm T 0 (T / 3 + 1)

/-- The media filter of `_wait_for_twitter_response` (client.py 577-590):
link-preview (web page) messages are skipped explicitly; only video or photo
qualify, above the watermark. -/
def isTwitterMedia (m : TMsg) : Bool :=
  match m.media with
  | .webPage => false
  | _ => isVideoMsg m || isPhotoMsg m

/-- Failure vocabulary of the Twitter poller (client.py 594). -/
def twitterFailureKeywords : List String :=
  ["no media", "not found", "error", "failed", "no video", "no photo"]

/-- A plain-text failure reply: non-empty text, no media at all, containing a
failure keyword (client.py 591-595). -/
def isFailureText (m : TMsg) : Bool :=
  (match m.media with | .noMedia => true | _ => false) &&
    !m.text.isEmpty &&
    twitterFailureKeywords.any (fun w => containsSub w.toList (lowerStr m.text))

/-- The polling loop of `_wait_for_twitter_response`; poll interval 5 seconds
(the single call site passes `poll_interval=5`). A failure text above the
watermark short-circuits to `None` through the normal return path. -/
def waitTwitterGo (env : Nat → NetRes (List TMsg)) (returnAll : Bool)
    (wm T : Nat) : Nat → Nat → Option WaitOut × Nat
  | k, 0 => (none, 5 * k)
  | k, fuel + 1 =>
    if 5 * k < T then
      match env k with
      | .ok msgs =>
        match sortById (msgs.filter (fun m => decide (wm < m.id) && isTwitterMedia m)) with
        | m :: rest =>
          (some (if returnAll then .all (m :: rest)
                 else .one ((m :: rest).getLast (List.cons_ne_nil m rest))),
           5 * k)
        | [] =>
          if msgs.filter (fun m => decide (wm < m.id) && isFailureText m) = [] then
            waitTwitterGo env returnAll wm T (k + 1) fuel
          else (none, 5 * k)
      | _ => waitTwitterGo env returnAll wm T (k + 1) fuel
    else (none, 5 * k)

/-- Embedding of `_wait_for_twitter_response` (client.py 564-616). -/
def wait_for_twitter_response (env : Nat → NetRes (List TMsg))
    (returnAll : Bool) (wm T : Nat) : Option WaitOut × Nat :=
  waitTwitterGo env returnAll wm T 0 (T / 5 + 1)

/-- No poll iteration ever produces a qualifying media message (exceptions
raised by `get_messages` count as producing nothing). -/
def NoQualifyingVideo (env : Nat → NetRes (List TMsg)) (isYoutube : Bool)
    (wm : Nat) : Prop :=
  ∀ k msgs, env k = .ok msgs → msgs.filter (qualifiesVideoWait isYoutube wm) = []

def NoQualifyingTwitterMedia (env : Nat → NetRes (List TMsg)) (wm : Nat) : Prop :=
  ∀ k msgs, env k = .ok msgs →
    msgs.filter (fun m => decide (wm < m.id) && isTwitterMedia m) = []

theorem waitVideoGo_no_qualifying (env : Nat → NetRes (List TMsg))
    (isYoutube returnAll : Bool) (wm T : Nat)
    (hq : NoQualifyingVideo env isYoutube wm) :
    ∀ fuel k, 3 * k ≤ T + 3 →
      (waitVideoGo env isYoutube returnAll wm T k fuel).1 = none ∧
      (waitVideoGo env isYoutube returnAll wm T k fuel).2 ≤ T + 3 := by
  intro fuel
  induction fuel with
  | zero =>
    intro k hk
    exact ⟨rfl, hk⟩
  | succ fuel ih =>
    intro k hk
    by_cases h3 : 3 * k < T
    · have hstep : waitVideoGo env isYoutube returnAll wm T k (fuel + 1) =
          waitVideoGo env isYoutube returnAll wm T (k + 1) fuel := by
        cases he : env k with
        | ok msgs => simp only [waitVideoGo, if_pos h3, he, hq k msgs he, sortById]
        | authDup => simp only [waitVideoGo, if_pos h3, he]
        | floodWait secs => simp only [waitVideoGo, if_pos h3, he]
        | err msg => simp only [waitVideoGo, if_pos h3, he]
      rw [hstep]
      exact ih (k + 1) (by omega)
    · have hstep : waitVideoGo env isYoutube returnAll wm T k (fuel + 1) =
          (none, 3 * k) := by
        simp only [waitVideoGo, if_neg h3]
      rw [hstep]
      exact ⟨rfl, hk⟩

theorem waitTwitterGo_no_qualifying (env : Nat → NetRes (List TMsg))
    (returnAll : Bool) (wm T : Nat)
    (hq : NoQualifyingTwitterMedia env wm) :
    ∀ fuel k, 5 * k ≤ T + 5 →
      (waitTwitterGo env returnAll wm T k fuel).1 = none ∧
      (waitTwitterGo env returnAll wm T k fuel).2 ≤ T + 5 := by
  intro fuel
  induction fuel with
  | zero =>
    intro k hk
    exact ⟨rfl, hk⟩
  | succ fuel ih =>
    intro k hk
    by_cases h5 : 5 * k < T
    · cases he : env k with
      | ok msgs =>
        have hf := hq k msgs he
        by_cases hft : msgs.filter (fun m => decide (wm < m.id) && isFailureText m) = []
        · have hstep : waitTwitterGo env returnAll wm T k (fuel + 1) =
              waitTwitterGo env returnAll wm T (k + 1) fuel := by
            simp only [waitTwitterGo, if_pos h5, he, hf, sortById, if_pos hft]
          rw [hstep]
          exact ih (k + 1) (by omega)
        · have hstep : waitTwitterGo env returnAll wm T k (fuel + 1) =
              (none, 5 * k) := by
            simp only [waitTwitterGo, if_pos h5, he, hf, sortById, if_neg hft]
          rw [hstep]
          exact ⟨rfl, by omega⟩
      | authDup =>
        have hstep : waitTwitterGo env returnAll wm T k (fuel + 1) =
            waitTwitterGo env returnAll wm T (k + 1) fuel := by
          simp only [waitTwitterGo, if_pos h5, he]
        rw [hstep]
        exact ih (k + 1) (by omega)
      | floodWait secs =>
        have hstep : waitTwitterGo env returnAll wm T k (fuel + 1) =
            waitTwitterGo env returnAll wm T (k + 1) fuel := by
          simp only [waitTwitterGo, if_pos h5, he]
        rw [hstep]
        exact ih (k + 1) (by omega)
      | err msg =>
        have hstep : waitTwitterGo env returnAll wm T k (fuel + 1) =
            waitTwitterGo env returnAll wm T (k + 1) fuel := by
          simp only [waitTwitterGo, if_pos h5, he]
        rw [hstep]
        exact ih (k + 1) (by omega)
    · have hstep : waitTwitterGo env returnAll wm T k (fuel + 1) =
          (none, 5 * k) := by
        simp only [waitTwitterGo, if_neg h5]
      rw [hstep]
      exact ⟨rfl, hk⟩

/-- C7: if no qualifying media message ever arrives (even if every poll
attempt raises an exception internally), both pollers return the no-response
result `none` through their normal return value, at an elapsed time of at
most the timeout plus one poll interval; no exception reaches the caller —
the polling loops catch every `get_messages` failure, as the `NetRes`
branches of the embedding show. -/
theorem poll_timeout_returns_none
    (envV envT : Nat → NetRes (List TMsg)) (isYoutube returnAllV returnAllT : Bool)
    (wmV wmT TV TT : Nat)
    (hV : NoQualifyingVideo envV isYoutube wmV)
    (hT : NoQualifyingTwitterMedia envT wmT) :
    ((wait_for_video_response envV isYoutube returnAllV wmV TV).1 = none ∧
      (wait_for_video_response envV isYoutube returnAllV wmV TV).2 ≤ TV + 3) ∧
    ((wait_for_twitter_response envT returnAllT wmT TT).1 = none ∧
      (wait_for_twitter_response envT returnAllT wmT TT).2 ≤ TT + 5) :=
  ⟨waitVideoGo_no_qualifying envV isYoutube returnAllV wmV TV hV _ 0 (by omega),
   waitTwitterGo_no_qualifying envT returnAllT wmT TT hT _ 0 (by omega)⟩

/-- C7 witness: a responder that never answers (every poll raises a transport
error) with timeout 7: both pollers return `none` within one extra interval. -/
theorem poll_timeout_returns_none_witness :
    ((wait_for_video_response (fun _ => .err "down") false true 4 7).1 = none ∧
      (wait_for_video_response (fun _ => .err "down") false true 4 7).2 ≤ 7 + 3) ∧
    ((wait_for_twitter_response (fun _ => .err "down") true 4 7).1 = none ∧
      (wait_for_twitter_response (fun _ => .err "down") true 4 7).2 ≤ 7 + 5) :=
  poll_timeout_returns_none (fun _ => .err "down") (fun _ => .err "down")
    false true true 4 4 7 7
    (fun _ _ h => nomatch h) (fun _ _ h => nomatch h)

theorem qualifiesVideoWait_lt {isYoutube : Bool} {wm : Nat} {m : TMsg}
    (h : qualifiesVideoWait isYoutube wm m = true) : wm < m.id := by
  simp only [qualifiesVideoWait, Bool.and_eq_true, decide_eq_true_eq] at h
  exact h.1

theorem waitVideoGo_watermark (env : Nat → NetRes (List TMsg))
    (isYoutube returnAll : Bool) (wm T : Nat) :
    ∀ fuel k out t, waitVideoGo env isYoutube returnAll wm T k fuel = (some out, t) →
      (∀ msgs, out = .all msgs → ∀ m ∈ msgs, wm < m.id) ∧
      (∀ m, out = .one m → wm < m.id) := by
  intro fuel
  induction fuel with
  | zero =>
    intro k out t h
    simp only [waitVideoGo, Prod.mk.injEq] at h
    exact absurd h.1 (by simp)
  | succ fuel ih =>
    intro k out t h
    by_cases h3 : 3 * k < T
    · cases he : env k with
      | ok msgs =>
        cases hs : sortById (msgs.filter (qualifiesVideoWait isYoutube wm)) with
        | nil =>
          have hstep : waitVideoGo env isYoutube returnAll wm T k (fuel + 1) =
              waitVideoGo env isYoutube returnAll wm T (k + 1) fuel := by
            simp only [waitVideoGo, if_pos h3, he, hs]
          rw [hstep] at h
          exact ih (k + 1) out t h
        | cons m rest =>
          have hstep : waitVideoGo env isYoutube returnAll wm T k (fuel + 1) =
              (some (if returnAll then .all (m :: rest)
                     else .one ((m :: rest).getLast (List.cons_ne_nil m rest))),
               3 * k) := by
            simp only [waitVideoGo, if_pos h3, he, hs]
          rw [hstep] at h
          rw [Prod.mk.injEq] at h
          obtain ⟨h1, -⟩ := h
          have hout := Option.some.inj h1
          have hmem : ∀ m' ∈ m :: rest, wm < m'.id := by
            intro m' hm'
            rw [← hs] at hm'
            have hmf := mem_sortById.mp hm'
            exact qualifiesVideoWait_lt (List.mem_filter.mp hmf).2
          subst hout
          by_cases hra : returnAll
          · simp only [hra, if_true]
            constructor
            · intro msgs0 heq
              obtain rfl : m :: rest = msgs0 := by
                cases heq
                rfl
              exact hmem
            · intro m0 heq
              simp [hra] at heq
          · simp only [hra, if_false]
            constructor
            · intro msgs0 heq
              simp [hra] at heq
            · intro m0 heq
              obtain rfl : (m :: rest).getLast (List.cons_ne_nil m rest) = m0 := by
                cases heq
                rfl
              exact hmem _ (List.getLast_mem _)
      | authDup =>
        have hstep : waitVideoGo env isYoutube returnAll wm T k (fuel + 1) =
            waitVideoGo env isYoutube returnAll wm T (k + 1) fuel := by
          simp only [waitVideoGo, if_pos h3, he]
        rw [hstep] at h
        exact ih (k + 1) out t h
      | floodWait secs =>
        have hstep : waitVideoGo env isYoutube returnAll wm T k (fuel + 1) =
            waitVideoGo env isYoutube returnAll wm T (k + 1) fuel := by
          simp only [waitVideoGo, if_pos h3, he]
        rw [hstep] at h
        exact ih (k + 1) out t h
      | err msg =>
        have hstep : waitVideoGo env isYoutube returnAll wm T k (fuel + 1) =
            waitVideoGo env isYoutube returnAll wm T (k + 1) fuel := by
          simp only [waitVideoGo, if_pos h3, he]
        rw [hstep] at h
        exact ih (k + 1) out t h
    · have hstep : waitVideoGo env isYoutube returnAll wm T k (fuel + 1) =
          (none, 3 * k) := by
        simp only [waitVideoGo, if_neg h3]
      rw [hstep] at h
      rw [Prod.mk.injEq] at h
      exact absurd h.1 (by simp)

theorem waitTwitterGo_watermark (env : Nat → NetRes (List TMsg))
    (returnAll : Bool) (wm T : Nat) :
    ∀ fuel k out t, waitTwitterGo env returnAll wm T k fuel = (some out, t) →
      (∀ msgs, out = .all msgs → ∀ m ∈ msgs, wm < m.id) ∧
      (∀ m, out = .one m → wm < m.id) := by
  intro fuel
  induction fuel with
  | zero =>
    intro k out t h
    simp only [waitTwitterGo, Prod.mk.injEq] at h
    exact absurd h.1 (by simp)
  | succ fuel ih =>
    intro k out t h
    by_cases h5 : 5 * k < T
    · cases he : env k with
      | ok msgs =>
        cases hs : sortById (msgs.filter (fun m => decide (wm < m.id) && isTwitterMedia m)) with
        | nil =>
          by_cases hft : msgs.filter (fun m => decide (wm < m.id) && isFailureText m) = []
          · have hstep : waitTwitterGo env returnAll wm T k (fuel + 1) =
                waitTwitterGo env returnAll wm T (k + 1) fuel := by
              simp only [waitTwitterGo, if_pos h5, he, hs, if_pos hft]
            rw [hstep] at h
            exact ih (k + 1) out t h
          · have hstep : waitTwitterGo env returnAll wm T k (fuel + 1) =
                (none, 5 * k) := by
              simp only [waitTwitterGo, if_pos h5, he, hs, if_neg hft]
            rw [hstep] at h
            rw [Prod.mk.injEq] at h
            exact absurd h.1 (by simp)
        | cons m rest =>
          have hstep : waitTwitterGo env returnAll wm T k (fuel + 1) =
              (some (if returnAll then .all (m :: rest)
                     else .one ((m :: rest).getLast (List.cons_ne_nil m rest))),
               5 * k) := by
            simp only [waitTwitterGo, if_pos h5, he, hs]
          rw [hstep] at h
          rw [Prod.mk.injEq] at h
          obtain ⟨h1, -⟩ := h
          have hout := Option.some.inj h1
          have hmem : ∀ m' ∈ m :: rest, wm < m'.id := by
            intro m' hm'
            rw [← hs] at hm'
            have hmf := mem_sortById.mp hm'
            have := (List.mem_filter.mp hmf).2
            simp only [Bool.and_eq_true, decide_eq_true_eq] at this
            exact this.1
          subst hout
          by_cases hra : returnAll
          · simp only [hra, if_true]
            constructor
            · intro msgs0 heq
              obtain rfl : m :: rest = msgs0 := by
                cases heq
                rfl
              exact hmem
            · intro m0 heq
              simp [hra] at heq
          · simp only [hra, if_false]
            constructor
            · intro msgs0 heq
              simp [hra] at heq
            · intro m0 heq
              obtain rfl : (m :: rest).getLast (List.cons_ne_nil m rest) = m0 := by
                cases heq
                rfl
              exact hmem _ (List.getLast_mem _)
      | authDup =>
        have hstep : waitTwitterGo env returnAll wm T k (fuel + 1) =
            waitTwitterGo env returnAll wm T (k + 1) fuel := by
          simp only [waitTwitterGo, if_pos h5, he]
        rw [hstep] at h
        exact ih (k + 1) out t h
      | floodWait secs =>
        have hstep : waitTwitterGo env returnAll wm T k (fuel + 1) =
            waitTwitterGo env returnAll wm T (k + 1) fuel := by
          simp only [waitTwitterGo, if_pos h5, he]
        rw [hstep] at h
        exact ih (k + 1) out t h
      | err msg =>
        have hstep : waitTwitterGo env returnAll wm T k (fuel + 1) =
            waitTwitterGo env returnAll wm T (k + 1) fuel := by
          simp only [waitTwitterGo, if_pos h5, he]
        rw [hstep] at h
        exact ih (k + 1) out t h
    · have hstep : waitTwitterGo env returnAll wm T k (fuel + 1) =
          (none, 5 * k) := by
        simp only [waitTwitterGo, if_neg h5]
      rw [hstep] at h
      rw [Prod.mk.injEq] at h
      exact absurd h.1 (by simp)

/-- C8: whatever the pollers return as a response — in `all` mode every
returned message, in `latest` mode the single returned message — has an id
strictly greater than the watermark (the id of the request message sent by
the identity); messages at or below the watermark are never returned. -/
theorem poll_ignores_at_or_below_watermark
    (envV envT : Nat → NetRes (List TMsg)) (isYoutube returnAllV returnAllT : Bool)
    (wmV wmT TV TT : Nat) :
    (∀ out t, wait_for_video_response envV isYoutube returnAllV wmV TV = (some out, t) →
      (∀ msgs, out = .all msgs → ∀ m ∈ msgs, wmV < m.id) ∧
      (∀ m, out = .one m → wmV < m.id)) ∧
    (∀ out t, wait_for_twitter_response envT returnAllT wmT TT = (some out, t) →
      (∀ msgs, out = .all msgs → ∀ m ∈ msgs, wmT < m.id) ∧
      (∀ m, out = .one m → wmT < m.id)) :=
  ⟨fun out t h => waitVideoGo_watermark envV isYoutube returnAllV wmV TV _ 0 out t h,
   fun out t h => waitTwitterGo_watermark envT returnAllT wmT TT _ 0 out t h⟩

/-- A qualifying video reply above the watermark 3 (id 5) next to a stale
reply below it (id 2). -/
def wmDemoMsg : TMsg := ⟨5, .video, ""⟩

def wmDemoEnv : Nat → NetRes (List TMsg) :=
  fun _ => .ok [wmDemoMsg, ⟨2, .video, "stale"⟩]

/-- A qualifying photo reply above the watermark 3 (id 7) next to a stale
one (id 1). -/
def twDemoMsg : TMsg := ⟨7, .photo, ""⟩

def twDemoEnv : Nat → NetRes (List TMsg) :=
  fun _ => .ok [twDemoMsg, ⟨1, .photo, "stale"⟩]

/-- C8 witness: concrete polls (watermark 3) return only the fresh messages,
whose ids exceed the watermark. -/
theorem poll_ignores_at_or_below_watermark_witness :
    3 < wmDemoMsg.id ∧ 3 < twDemoMsg.id :=
  ⟨((poll_ignores_at_or_below_watermark wmDemoEnv twDemoEnv false false true
      3 3 9 9).1 (.one wmDemoMsg) 0 (by decide)).2 wmDemoMsg rfl,
   ((poll_ignores_at_or_below_watermark wmDemoEnv twDemoEnv false false true
      3 3 9 9).2 (.all [twDemoMsg]) 0 (by decide)).1 [twDemoMsg] rfl twDemoMsg
      (by simp)⟩

/-! ### ExternalBotSession — platform processing and session recovery
(client.py 131-562, 1199-1214)

The session state the recovery logic reads and writes is the
`is_authenticated` flag. Poll results are abstracted to the value
`_wait_for_video_response` returns (it never raises — see C7); upload results
are abstracted to the value the upload helpers return (both catch every
exception internally and return an optional message id). The final `Nat` in
each result counts the responder network calls the job attempted. -/

structure UState where
  is_authenticated : Bool
deriving DecidableEq, Repr

/-- The text test of the generic exception handler of `process_facebook_url`
(client.py 442): a duplicated-authorization-key fault recognised from the
exception message. -/
def looksLikeAuthDup (s : String) : Bool :=
  containsSub "authorization key".toList (lowerStr s) &&
    containsSub "two different ip".toList (lowerStr s)

/-- Choice of the message to upload (client.py 378-390 and 535-545):
newest-to-oldest, the first true video; otherwise the newest media message. -/
def chooseVideoElseLatest (l : List TMsg) : Option TMsg :=
  match l.reverse.find? isVideoMsg with
  | some m => some m
  | none => l.getLast?

/-- Environment of one Facebook job: outcomes of the priming send, the URL
send, the poll, the upload, the recovery reconnect (does `connect` raise, is
the identity still authorized afterwards), and of the single post-recovery
retry. -/
structure FbEnv where
  startRes : NetRes Nat
  sendRes : NetRes Nat
  pollRes : Option (List TMsg)
  uploadRes : Option Nat
  recReconnectFails : Bool
  recAuthorized : Bool
  retrySendRes : NetRes Nat
  retryPollRes : Option (List TMsg)
  retryUploadRes : Option Nat
deriving DecidableEq, Repr

/-- `_recover_session` (client.py 1199-1214) followed by the single retry in
the identity-conflict handler of `process_facebook_url` (client.py 402-436).
A raise during reconnect propagates and is caught by the handler (job fails,
state unchanged). Otherwise, if the identity is no longer authorized,
`_recover_session` only records `is_authenticated = False` and returns
normally — and the retry still proceeds, exactly as in the source. Any
exception during the retry is caught and the job fails. -/
def fbRecoveryRetry (st : UState) (env : FbEnv) (calls : Nat) :
    Option Nat × UState × Nat :=
  if env.recReconnectFails then (none, st, calls)
  else
    let st' : UState := if env.recAuthorized then st else ⟨false⟩
    match env.retrySendRes with
    | .ok _ =>
      match env.retryPollRes with
      | none => (none, st', calls + 2)
      | some ms =>
        if ms = [] then (none, st', calls + 2)
        else
          match chooseVideoElseLatest ms with
          | none => (none, st', calls + 2)
          | some _ =>
            match env.retryUploadRes with
            | some mid => (some mid, st', calls + 3)
            | none => (none, st', calls + 3)
    | _ => (none, st', calls + 1)

/-- Embedding of `process_facebook_url` (client.py 339-477): the
unauthenticated fast-path, the send → poll → choose → upload pipeline,
rate-limit and transport failures, and the one-shot recovery retry on an
identity-conflict fault (the typed `AuthKeyDuplicatedError`, or the same
fault recognised from a generic exception message). -/
def process_facebook_url (st : UState) (env : FbEnv) : Option Nat × UState × Nat :=
  if ¬ st.is_authenticated then (none, st, 0)
  else
    match env.startRes with
    | .authDup => fbRecoveryRetry st env 1
    | .floodWait _ => (none, st, 1)
    | .err m => if looksLikeAuthDup m then fbRecoveryRetry st env 1 else (none, st, 1)
    | .ok _ =>
      match env.sendRes with
      | .authDup => fbRecoveryRetry st env 2
      | .floodWait _ => (none, st, 2)
      | .err m => if looksLikeAuthDup m then fbRecoveryRetry st env 2 else (none, st, 2)
      | .ok _ =>
        match env.pollRes with
        | none => (none, st, 3)
        | some ms =>
          if ms = [] then (none, st, 3)
          else
            match chooseVideoElseLatest ms with
            | none => (none, st, 3)
            | some _ =>
              match env.uploadRes with
              | some mid => (some mid, st, 4)
              | none => (none, st, 4)

/-- Several Facebook jobs processed in sequence against the shared session
state; each result is the job outcome and its attempted network call count. -/
def runFbJobs (st : UState) : List FbEnv → List (Option Nat × Nat) × UState
  | [] => ([], st)
  | e :: es =>
    let r := process_facebook_url st e
    let rest := runFbJobs r.2.1 es
    ((r.1, r.2.2) :: rest.1, rest.2)

/-- Environment of one Instagram attempt (the source tries up to two). -/
structure IgAttempt where
  startRes : NetRes Nat
  sendRes : NetRes Nat
  pollRes : Option (List TMsg)
  uploadRes : Option Nat
deriving DecidableEq, Repr

/-- The attempt loop of `process_instagram_url` (client.py 149-207):
`max_retries = 2`; a `FloodWaitError` returns `None` immediately from any
attempt; any other exception, or an empty poll result, moves on to the next
attempt; an upload outcome (success or failure) returns immediately. -/
def igLoop (env : Nat → IgAttempt) : Nat → Nat → Nat → Option Nat × Nat
  | 0, _, calls => (none, calls)
  | remaining + 1, i, calls =>
    match (env i).startRes with
    | .floodWait _ => (none, calls + 1)
    | .authDup => igLoop env remaining (i + 1) (calls + 1)
    | .err _ => igLoop env remaining (i + 1) (calls + 1)
    | .ok _ =>
      match (env i).sendRes with
      | .floodWait _ => (none, calls + 2)
      | .authDup => igLoop env remaining (i + 1) (calls + 2)
      | .err _ => igLoop env remaining (i + 1) (calls + 2)
      | .ok _ =>
        match (env i).pollRes with
        | none => igLoop env remaining (i + 1) (calls + 3)
        | some ms =>
          if ms = [] then igLoop env remaining (i + 1) (calls + 3)
          else
            match (env i).uploadRes with
            | some mid => (some mid, calls + 4)
            | none => (none, calls + 4)

/-- Embedding of `process_instagram_url` (client.py 131-207). -/
def process_instagram_url (st : UState) (env : Nat → IgAttempt) : Option Nat × Nat :=
  if ¬ st.is_authenticated then (none, 0) else igLoop env 2 0 0

/-- Environment of one Twitter job (plain request: no pre-sent message id and
no format callback). -/
structure TwEnv where
  sendRes : NetRes Nat
  pollRes : Option (List TMsg)
  uploadRes : Option Nat
deriving DecidableEq, Repr

/-- Embedding of `process_twitter_url` (client.py 479-562) for a plain
request; both its exception handlers return `None`. -/
def process_twitter_url (st : UState) (env : TwEnv) : Option Nat × Nat :=
  if ¬ st.is_authenticated then (none, 0)
  else
    match env.sendRes with
    | .floodWait _ => (none, 1)
    | .authDup => (none, 1)
    | .err _ => (none, 1)
    | .ok _ =>
      match env.pollRes with
      | none => (none, 2)
      | some ms =>
        if ms = [] then (none, 2)
        else
          match chooseVideoElseLatest ms with
          | none => (none, 2)
          | some _ =>
            match env.uploadRes with
            | some mid => (some mid, 3)
            | none => (none, 3)

/-! ### Claim C4 — session recovery -/

theorem fbRecoveryRetry_state (st : UState) (env : FbEnv) (calls : Nat)
    (h1 : env.recReconnectFails = false) (h2 : env.recAuthorized = true) :
    (fbRecoveryRetry st env calls).2.1 = st := by
  unfold fbRecoveryRetry
  simp only [h1, h2, Bool.false_eq_true, if_false, if_true]
  cases env.retrySendRes with
  | ok a =>
    cases env.retryPollRes with
    | none => rfl
    | some ms =>
      by_cases hms : ms = []
      · simp [hms]
      · simp only [if_neg hms]
        cases chooseVideoElseLatest ms with
        | none => rfl
        | some c => cases env.retryUploadRes <;> rfl
  | authDup => rfl
  | floodWait secs => rfl
  | err msg => rfl

theorem fbRecoveryRetry_state_unauth (st : UState) (env : FbEnv) (calls : Nat)
    (h1 : env.recReconnectFails = false) (h2 : env.recAuthorized = false) :
    (fbRecoveryRetry st env calls).2.1 = ⟨false⟩ := by
  unfold fbRecoveryRetry
  simp only [h1, h2, Bool.false_eq_true, if_false]
  cases env.retrySendRes with
  | ok a =>
    cases env.retryPollRes with
    | none => rfl
    | some ms =>
      by_cases hms : ms = []
      · simp [hms]
      · simp only [if_neg hms]
        cases chooseVideoElseLatest ms with
        | none => rfl
        | some c => cases env.retryUploadRes <;> rfl
  | authDup => rfl
  | floodWait secs => rfl
  | err msg => rfl

theorem process_facebook_url_unauth (env : FbEnv) :
    process_facebook_url ⟨false⟩ env = (none, ⟨false⟩, 0) := rfl

theorem chooseVideoElseLatest_isSome {ms : List TMsg} (h : ms ≠ []) :
    ∃ c, chooseVideoElseLatest ms = some c := by
  unfold chooseVideoElseLatest
  cases hf : ms.reverse.find? isVideoMsg with
  | some m => exact ⟨m, rfl⟩
  | none =>
    have : ms.getLast?.isSome := by
      cases ms with
      | nil => exact absurd rfl h
      | cons x xs => simp [List.getLast?_isSome]
    obtain ⟨c, hc⟩ := Option.isSome_iff_exists.mp this
    exact ⟨c, hc⟩

/-- Job 1: identity-conflict fault on the priming send; reconnect succeeds
and the identity is confirmed authorized; the retried send hits a second
consecutive identity-conflict fault. -/
def fbFaultTwice : FbEnv :=
  ⟨.authDup, .ok 1, none, none, false, true, .authDup, none, none⟩

/-- Job 2: a fully normal job (send ok, one video reply, upload succeeds). -/
def fbGood : FbEnv :=
  ⟨.ok 1, .ok 2, some [⟨9, .video, ""⟩], some 77, false, true, .ok 0, none, none⟩

/-- A job whose identity-conflict recovery finds the session unauthorized. -/
def fbUnauthEnv : FbEnv :=
  ⟨.authDup, .ok 1, none, none, false, false, .ok 5, none, none⟩

/-- C4 counterexample: after two consecutive identity-conflict faults within
one job (the reconnect in between succeeded with authorization confirmed),
the next job does NOT fail with zero network calls — it runs normally,
attempts 4 responder calls and succeeds. The claimed trigger for the
fail-fast state (a second consecutive fault) does not disable the session in
the code; only a reconnect that finds the identity unauthorized does. -/
theorem second_fault_counterexample :
    (runFbJobs ⟨true⟩ [fbFaultTwice, fbGood]).1 = [(none, 2), (some 77, 4)] ∧
      (runFbJobs ⟨true⟩ [fbFaultTwice, fbGood]).1.get? 1 ≠ some (none, 0) := by
  exact ⟨by decide, by decide⟩

/-- C4 (amended): after an identity-conflict fault the session reconnects at
most once and retries the job once. (a) If the reconnect succeeds with
authorization confirmed, the session state is unchanged — even when the retry
hits a second consecutive fault — and (b) the next job completes normally.
(c) If the reconnect finds the identity unauthorized, the session is marked
unauthenticated, and (d) from that state every subsequent job fails
immediately with zero network calls attempted, until externally reset. -/
theorem session_recovery_amended :
    (∀ env : FbEnv, env.startRes = .authDup → env.recReconnectFails = false →
      env.recAuthorized = true →
      (process_facebook_url ⟨true⟩ env).2.1 = ⟨true⟩) ∧
    (∀ (env env2 : FbEnv) (a b mid : Nat) (ms : List TMsg),
      env.startRes = .authDup → env.recReconnectFails = false →
      env.recAuthorized = true →
      env2.startRes = .ok a → env2.sendRes = .ok b → env2.pollRes = some ms →
      ms ≠ [] → env2.uploadRes = some mid →
      (runFbJobs ⟨true⟩ [env, env2]).1.get? 1 = some (some mid, 4)) ∧
    (∀ env : FbEnv, env.startRes = .authDup → env.recReconnectFails = false →
      env.recAuthorized = false →
      (process_facebook_url ⟨true⟩ env).2.1 = ⟨false⟩) ∧
    (∀ envs : List FbEnv,
      (runFbJobs ⟨false⟩ envs).1 = envs.map (fun _ => (none, 0)) ∧
      (runFbJobs ⟨false⟩ envs).2 = ⟨false⟩) := by
  have hstep : ∀ env : FbEnv, env.startRes = .authDup →
      process_facebook_url ⟨true⟩ env = fbRecoveryRetry ⟨true⟩ env 1 := by
    intro env hs
    unfold process_facebook_url
    simp [hs]
  refine ⟨?_, ?_, ?_, ?_⟩
  · intro env hs h1 h2
    rw [hstep env hs]
    exact fbRecoveryRetry_state ⟨true⟩ env 1 h1 h2
  · intro env env2 a b mid ms hs h1 h2 hs2 hse2 hp2 hms hup
    have hst1 : (process_facebook_url ⟨true⟩ env).2.1 = ⟨true⟩ := by
      rw [hstep env hs]
      exact fbRecoveryRetry_state ⟨true⟩ env 1 h1 h2
    obtain ⟨c, hc⟩ := chooseVideoElseLatest_isSome hms
    have hjob2 : process_facebook_url ⟨true⟩ env2 = (some mid, ⟨true⟩, 4) := by
      unfold process_facebook_url
      simp [hs2, hse2, hp2, hms, hc, hup]
    simp only [runFbJobs, hst1, hjob2]
    rfl
  · intro env hs h1 h2
    rw [hstep env hs]
    exact fbRecoveryRetry_state_unauth ⟨true⟩ env 1 h1 h2
  · intro envs
    induction envs with
    | nil => exact ⟨rfl, rfl⟩
    | cons e es ih =>
      simp only [runFbJobs, process_facebook_url_unauth, List.map_cons]
      exact ⟨by rw [ih.1], ih.2⟩

/-- C4 witness: the amended recovery behavior at concrete jobs — a
fault-with-authorized-reconnect job keeps the session usable and the next
job succeeds with 4 calls; an unauthorized reconnect marks the session
unauthenticated; from the unauthenticated state a job fails with 0 calls. -/
theorem session_recovery_amended_witness :
    (process_facebook_url ⟨true⟩ fbFaultTwice).2.1 = ⟨true⟩ ∧
    (runFbJobs ⟨true⟩ [fbFaultTwice, fbGood]).1.get? 1 = some (some 77, 4) ∧
    (process_facebook_url ⟨true⟩ fbUnauthEnv).2.1 = ⟨false⟩ ∧
    (runFbJobs ⟨false⟩ [fbGood]).1 = [(none, 0)] :=
  ⟨session_recovery_amended.1 fbFaultTwice rfl rfl rfl,
   session_recovery_amended.2.1 fbFaultTwice fbGood 1 2 77 [⟨9, .video, ""⟩]
     rfl rfl rfl rfl rfl rfl (by decide) rfl,
   session_recovery_amended.2.2.1 fbUnauthEnv rfl rfl rfl,
   by
     have h := (session_recovery_amended.2.2.2 [fbGood]).1
     simpa using h⟩

/-! ### Claim C9 — rate-limit handling -/

/-- An Instagram environment whose URL send is rate-limited with a required
wait of `w` seconds. -/
def igFloodEnv (w : Nat) : Nat → IgAttempt :=
  fun _ => ⟨.ok 1, .floodWait w, none, none⟩

/-- C9 counterexample: on a rate-limit signal the job resolves as the bare
failure value `none` — the result is identical whether the responder demanded
a 42-second or a 7-second wait, so no wait duration is carried back to the
caller (the duration is only logged inside the handler). -/
theorem rate_limited_counterexample :
    process_instagram_url ⟨true⟩ (igFloodEnv 42) = (none, 2) ∧
    process_instagram_url ⟨true⟩ (igFloodEnv 7) = (none, 2) ∧
    process_instagram_url ⟨true⟩ (igFloodEnv 42) =
      process_instagram_url ⟨true⟩ (igFloodEnv 7) := by
  exact ⟨by decide, by decide, by decide⟩

/-- C9 (amended): when a responder signals a rate limit during processing,
the job resolves immediately as a plain failure (`None`) and the core never
auto-retries it — processing stops at the faulting call (one call when the
priming send faulted, two when the URL send did; the second Instagram attempt
is never entered) — but the result does not carry the required wait duration
back to the caller; the duration is only logged. -/
theorem rate_limit_no_result_no_retry :
    (∀ (w : Nat) (env : Nat → IgAttempt),
      (env 0).startRes = .floodWait w →
      process_instagram_url ⟨true⟩ env = (none, 1)) ∧
    (∀ (w a : Nat) (env : Nat → IgAttempt),
      (env 0).startRes = .ok a → (env 0).sendRes = .floodWait w →
      process_instagram_url ⟨true⟩ env = (none, 2)) ∧
    (∀ (w : Nat) (env : TwEnv), env.sendRes = .floodWait w →
      process_twitter_url ⟨true⟩ env = (none, 1)) := by
  refine ⟨?_, ?_, ?_⟩
  · intro w env h
    unfold process_instagram_url
    simp [igLoop, h]
  · intro w a env h1 h2
    unfold process_instagram_url
    simp [igLoop, h1, h2]
  · intro w env h
    unfold process_twitter_url
    simp [h]

/-- C9 witness: the amended rate-limit behavior at concrete environments. -/
theorem rate_limit_no_result_no_retry_witness :
    process_instagram_url ⟨true⟩ (igFloodEnv 42) = (none, 2) ∧
    process_twitter_url ⟨true⟩ ⟨.floodWait 9, none, none⟩ = (none, 1) :=
  ⟨rate_limit_no_result_no_retry.2.1 42 1 (igFloodEnv 42) rfl rfl,
   rate_limit_no_result_no_retry.2.2 9 ⟨.floodWait 9, none, none⟩ rfl⟩

/-! ### Cache database — src/db/database.py

The `videos` table with its UNIQUE url constraint is a list of rows; an
insert of a duplicate url raises `IntegrityError`. `DbEnv` injects the
faults an operation can hit: any connection/SQL exception, and a failure of
`datetime.fromisoformat` on the stored timestamp. The raw variants are the
operation bodies before their `except` clauses; the public operations match
on the raw result exactly as the Python handlers do. -/

inductive Platform where
  | instagram
  | tiktok
  | facebook
  | twitter
  | youtube
  | unknown
deriving DecidableEq, Repr

structure VideoRow where
  url : String
  channel_message_id : Nat
  platform : Platform
  timestamp : Nat
deriving DecidableEq, Repr

structure DbState where
  videos : List VideoRow
deriving DecidableEq, Repr

structure DbEnv where
  connectFault : Bool
  parseFault : Bool
deriving DecidableEq, Repr

inductive DbExc where
  | sqlError
  | integrityError
  | parseError
deriving DecidableEq, Repr

def hasUrl (st : DbState) (url : String) : Bool :=
  st.videos.any (fun r => r.url == url)

def findUrl (st : DbState) (url : String) : Option VideoRow :=
  st.videos.find? (fun r => r.url == url)

/-- The body of `add_video` (database.py 149-162) before its handlers: the
INSERT raises `IntegrityError` on a duplicate url (UNIQUE constraint) and
may raise on any connection fault; on success the new row is committed.
(`_update_daily_stats` catches its own exceptions and cannot change the
outcome.) -/
def add_video_raw (env : DbEnv) (st : DbState) (url : String)
    (channel_message_id : Nat) (platform : Platform) (now : Nat) :
    Except DbExc (Bool × DbState) :=
  if env.connectFault then .error .sqlError
  else if hasUrl st url then .error .integrityError
  else .ok (true, ⟨st.videos ++ [⟨url, channel_message_id, platform, now⟩]⟩)

/-- `add_video` (database.py 138-168): both `except` clauses return `False`
and leave the table unchanged. -/
def add_video (env : DbEnv) (st : DbState) (url : String)
    (channel_message_id : Nat) (platform : Platform) (now : Nat) :
    Bool × DbState :=
  match add_video_raw env st url channel_message_id platform now with
  | .ok r => r
  | .error _ => (false, st)

def get_video_raw (env : DbEnv) (st : DbState) (url : String) :
    Except DbExc (Option (Nat × Nat)) :=
  if env.connectFault then .error .sqlError
  else
    match findUrl st url with
    | none => .ok none
    | some r =>
      if env.parseFault then .error .parseError
      else .ok (some (r.channel_message_id, r.timestamp))

/-- `get_video` (database.py 170-193): the stored
(channel_message_id, timestamp) for the url; `None` on a missing key and
`None` when any internal exception was raised (caught by its handler). -/
def get_video (env : DbEnv) (st : DbState) (url : String) : Option (Nat × Nat) :=
  match get_video_raw env st url with
  | .ok r => r
  | .error _ => none

/-- `get_video_count` (database.py 195-204): row count, 0 on any error. -/
def get_video_count (env : DbEnv) (st : DbState) : Nat :=
  if env.connectFault then 0 else st.videos.length

/-- `get_mandatory_channels` (database.py 447-457), representative of the
list queries: the stored rows, an empty list on any error. -/
def get_mandatory_channels (env : DbEnv) (chans : List String) : List String :=
  if env.connectFault then [] else chans

theorem findUrl_eq_none_of_hasUrl_false {st : DbState} {url : String}
    (h : hasUrl st url = false) : findUrl st url = none := by
  unfold findUrl
  rw [List.find?_eq_none]
  intro r hr
  simp only [hasUrl, List.any_eq_false] at h
  simp [h r hr]

/-- C10: every cache/database operation is total toward its caller — every
internal fault is caught and mapped to the neutral default. On any
connection fault, `add_video` returns `False` with the table unchanged,
`get_video` returns `None`, `get_video_count` returns 0 and the channel list
query returns `[]`. On a duplicate key `add_video` returns `False` and never
overwrites the existing row (first writer wins); a fresh key with no fault
appends exactly the new row. `get_video` returns `None` on a missing key and
the stored reference on a present key with no fault. -/
theorem db_operations_total (env : DbEnv) (st : DbState) (url : String)
    (mid : Nat) (pf : Platform) (now : Nat) (chans : List String) :
    (env.connectFault = true →
      add_video env st url mid pf now = (false, st) ∧
      get_video env st url = none ∧
      get_video_count env st = 0 ∧
      get_mandatory_channels env chans = []) ∧
    (hasUrl st url = true → add_video env st url mid pf now = (false, st)) ∧
    (hasUrl st url = false → env.connectFault = false →
      add_video env st url mid pf now = (true, ⟨st.videos ++ [⟨url, mid, pf, now⟩]⟩)) ∧
    (hasUrl st url = false → get_video env st url = none) ∧
    (env.connectFault = false → env.parseFault = false →
      ∀ r, findUrl st url = some r →
        get_video env st url = some (r.channel_message_id, r.timestamp)) := by
  refine ⟨?_, ?_, ?_, ?_, ?_⟩
  · intro h
    refine ⟨?_, ?_, ?_, ?_⟩
    · simp [add_video, add_video_raw, h]
    · simp [get_video, get_video_raw, h]
    · simp [get_video_count, h]
    · simp [get_mandatory_channels, h]
  · intro h
    by_cases hc : env.connectFault = true
    · simp [add_video, add_video_raw, hc]
    · simp only [Bool.not_eq_true] at hc
      simp [add_video, add_video_raw, hc, h]
  · intro h hc
    simp [add_video, add_video_raw, hc, h]
  · intro h
    have hf := findUrl_eq_none_of_hasUrl_false h
    by_cases hc : env.connectFault = true
    · simp [get_video, get_video_raw, hc]
    · simp only [Bool.not_eq_true] at hc
      simp [get_video, get_video_raw, hc, hf]
  · intro hc hp r hr
    simp [get_video, get_video_raw, hc, hp, hr]

/-- A one-row cache table holding url `u`. -/
def dbDemoRow : VideoRow := ⟨"u", 5, .instagram, 100⟩

def dbDemo : DbState := ⟨[dbDemoRow]⟩

/-- C10 witness: the totality theorem at a concrete one-row table — faulted
operations return the neutral defaults, a duplicate insert returns `False`
leaving the row intact, a fresh insert appends it, and lookups return the
stored reference or `None`. -/
theorem db_operations_total_witness :
    (add_video ⟨true, false⟩ dbDemo "u" 9 .tiktok 200 = (false, dbDemo) ∧
      get_video ⟨true, false⟩ dbDemo "u" = none ∧
      get_video_count ⟨true, false⟩ dbDemo = 0 ∧
      get_mandatory_channels ⟨true, false⟩ ["c"] = []) ∧
    add_video ⟨false, false⟩ dbDemo "u" 9 .tiktok 200 = (false, dbDemo) ∧
    add_video ⟨false, false⟩ ⟨[]⟩ "u" 5 .instagram 100 = (true, dbDemo) ∧
    get_video ⟨false, false⟩ ⟨[]⟩ "u" = none ∧
    get_video ⟨false, false⟩ dbDemo "u" = some (5, 100) :=
  ⟨(db_operations_total ⟨true, false⟩ dbDemo "u" 9 .tiktok 200 ["c"]).1 rfl,
   (db_operations_total ⟨false, false⟩ dbDemo "u" 9 .tiktok 200 ["c"]).2.1 (by decide),
   (db_operations_total ⟨false, false⟩ ⟨[]⟩ "u" 5 .instagram 100 ["c"]).2.2.1
     (by decide) rfl,
   (db_operations_total ⟨false, false⟩ ⟨[]⟩ "u" 5 .instagram 100 ["c"]).2.2.2.1
     (by decide),
   (db_operations_total ⟨false, false⟩ dbDemo "u" 9 .tiktok 200 ["c"]).2.2.2.2
     rfl rfl dbDemoRow (by decide)⟩

/-! ### Dispatcher / processing queue — src/bot/handlers.py 2658-2811

`queue_processing_request` appends requests to a FIFO `asyncio.Queue`; the
single worker task dequeues and processes them one at a time, so a run of the
worker over the queued requests is a sequential traversal of the queue in
arrival order. -/

structure PRequest where
  user_id : Nat
  url : String
  url_type : Platform
deriving DecidableEq, Repr

instance exceptDecEq {α β : Type} [DecidableEq α] [DecidableEq β] :
    DecidableEq (Except α β) := fun x y =>
  match x, y with
  | .ok a, .ok b =>
    if h : a = b then .isTrue (by rw [h])
    else .isFalse (fun hc => h (Except.ok.inj hc))
  | .error a, .error b =>
    if h : a = b then .isTrue (by rw [h])
    else .isFalse (fun hc => h (Except.error.inj hc))
  | .ok a, .error b => .isFalse (fun hc => Except.noConfusion hc)
  | .error a, .ok b => .isFalse (fun hc => Except.noConfusion hc)

/-- Environment of one worker iteration: what the platform processing call
produced (`.error e` = a Python exception with text `e` raised into the
worker body), the database fault state and clock for the cache insert, and
whether each of the two user-notification replies itself raises (aiogram
send failures). -/
structure ReqEnv where
  procRes : Except String (Option Nat)
  dbEnv : DbEnv
  now : Nat
  replyFails : Bool
  errReplyFails : Bool
deriving DecidableEq, Repr

/-- The observable fields of a `ProcessingRequest` once the worker has
handled it: `request.result`, `request.error`, and whether
`request.completed.set()` was reached. -/
structure DoneReq where
  result : Option Nat
  error : Option String
  completed : Bool
deriving DecidableEq, Repr

/-- Python truthiness of `storage_message_id` (`if storage_message_id:`). -/
def pyTruthy : Option Nat → Bool
  | none => false
  | some n => n != 0

/-- Exception text standing for a failed user-notification reply. -/
def replyExcMsg : String := "reply failed"

/-- One iteration of the worker body of `process_queue_worker`
(handlers.py 2681-2746): dispatch to the platform processor, record
`request.result`, cache a truthy result via `add_video`, notify the user,
then set the completion event. An exception anywhere in the inner body is
caught by the inner handler, which records `request.error` and sends a
failure reply; if that reply itself raises, the exception escapes to the
outer handler and `request.completed.set()` is skipped.
(`send_processed_result`, `increment_user_downloads` and the loading-message
deletion catch their own exceptions and cannot alter this control flow.) -/
def processOne (db : DbState) (req : PRequest) (env : ReqEnv) : DbState × DoneReq :=
  match env.procRes with
  | .error e => (db, ⟨none, some e, !env.errReplyFails⟩)
  | .ok sid =>
    if pyTruthy sid then
      let added := add_video env.dbEnv db req.url (sid.getD 0) req.url_type env.now
      (added.2, ⟨sid, none, true⟩)
    else
      if env.replyFails then (db, ⟨sid, some replyExcMsg, !env.errReplyFails⟩)
      else (db, ⟨sid, none, true⟩)

inductive WEvent where
  | beginReq (uid : Nat)
  | endReq (uid : Nat)
deriving DecidableEq, Repr

/-- The worker loop of `process_queue_worker` (handlers.py 2667-2753): one
task repeatedly dequeues a request and processes it to completion before
dequeuing the next; the outer exception handler only logs, pauses briefly and
continues, so the loop survives every failure. The trace records, in order,
when each dequeued request began and finished processing. -/
def runWorker (db : DbState) :
    List (PRequest × ReqEnv) → DbState × List DoneReq × List WEvent
  | [] => (db, [], [])
  | (r, e) :: rest =>
    let p := processOne db r e
    let w := runWorker p.1 rest
    (w.1, p.2 :: w.2.1, .beginReq r.user_id :: .endReq r.user_id :: w.2.2)

/-- Serialized traces: begin/finish pairs strictly alternate — each request
fully completes before the next begins, and at no instant are two requests
in flight. -/
inductive Serialized : List WEvent → Prop where
  | nil : Serialized []
  | pair (u : Nat) (rest : List WEvent) :
      Serialized rest → Serialized (.beginReq u :: .endReq u :: rest)

/-- C1: the single worker processes queued requests strictly in arrival
order, one at a time: the event trace is serialized (begin/finish pairs
never overlap), every queued request produces a processed record, and the
n-th request begins at trace position 2n and finishes at 2n+1 — so for any
two requests A before B, A finishes (position 2n+1) before B begins
(position 2m ≥ 2n+2). -/
theorem worker_fifo_serialized (db : DbState) (q : List (PRequest × ReqEnv)) :
    Serialized (runWorker db q).2.2 ∧
    (runWorker db q).2.2.length = 2 * q.length ∧
    (runWorker db q).2.1.length = q.length ∧
    (∀ n r e, q.get? n = some (r, e) →
      (runWorker db q).2.2.get? (2 * n) = some (.beginReq r.user_id) ∧
      (runWorker db q).2.2.get? (2 * n + 1) = some (.endReq r.user_id)) := by
  induction q generalizing db with
  | nil =>
    refine ⟨Serialized.nil, rfl, rfl, ?_⟩
    intro n r e h
    simp at h
  | cons re rest ih =>
    obtain ⟨r, e⟩ := re
    obtain ⟨ih1, ih2, ih3, ih4⟩ := ih (processOne db r e).1
    refine ⟨Serialized.pair _ _ ih1, ?_, ?_, ?_⟩
    · simp only [runWorker, List.length_cons, ih2]
      omega
    · simp only [runWorker, List.length_cons, ih3]
    · intro n r' e' h
      cases n with
      | zero =>
        simp only [List.get?] at h
        have h' := Option.some.inj h
        rw [Prod.mk.injEq] at h'
        obtain ⟨rfl, rfl⟩ := h'
        exact ⟨rfl, rfl⟩
      | succ n =>
        simp only [List.get?] at h
        have h2 : 2 * (n + 1) = (2 * n).succ.succ := by omega
        have h3 : 2 * (n + 1) + 1 = (2 * n + 1).succ.succ := by omega
        rw [h3, h2]
        simp only [runWorker, List.get?]
        exact ih4 n r' e' h

/-- Two requests submitted in order: A (user 1) then B (user 2). -/
def reqA : PRequest := ⟨1, "urlA", .instagram⟩

def reqB : PRequest := ⟨2, "urlB", .tiktok⟩

def okEnv : ReqEnv := ⟨.ok (some 5), ⟨false, false⟩, 100, false, false⟩

def okEnvB : ReqEnv := ⟨.ok (some 6), ⟨false, false⟩, 101, false, false⟩

/-- C1 witness: for the concrete queue [A, B], the trace places the end of
A (position 1) before the begin of B (position 2). -/
theorem worker_fifo_serialized_witness :
    (runWorker ⟨[]⟩ [(reqA, okEnv), (reqB, okEnvB)]).2.2.get? 1 =
      some (.endReq reqA.user_id) ∧
    (runWorker ⟨[]⟩ [(reqA, okEnv), (reqB, okEnvB)]).2.2.get? 2 =
      some (.beginReq reqB.user_id) :=
  ⟨((worker_fifo_serialized ⟨[]⟩ [(reqA, okEnv), (reqB, okEnvB)]).2.2.2
      0 reqA okEnv rfl).2,
   ((worker_fifo_serialized ⟨[]⟩ [(reqA, okEnv), (reqB, okEnvB)]).2.2.2
      1 reqB okEnvB rfl).1⟩

/-! ### Claim C3 — worker fault handling -/

theorem runWorker_length (db : DbState) (q : List (PRequest × ReqEnv)) :
    (runWorker db q).2.1.length = q.length := by
  induction q generalizing db with
  | nil => rfl
  | cons re rest ih =>
    obtain ⟨r, e⟩ := re
    simp only [runWorker, List.length_cons]
    rw [ih]

/-- A processing fault whose failure-notification reply itself raises. -/
def failNotifyEnv : ReqEnv := ⟨.error "boom", ⟨false, false⟩, 0, false, true⟩

/-- C3 counterexample: when the processing of a request faults and the
failure-notification reply itself raises, the exception escapes to the outer
handler and `request.completed.set()` is never reached — the error is
recorded but the completion signal is NOT set, so an awaiting caller would
hang on this request. -/
theorem hanging_job_counterexample :
    (processOne ⟨[]⟩ reqA failNotifyEnv).2.completed = false ∧
    (processOne ⟨[]⟩ reqA failNotifyEnv).2.error = some "boom" := by
  exact ⟨by decide, by decide⟩

/-- C3 (amended): any internal fault raised during a request is caught and
recorded as that request's failure result, and the worker loop always
continues to process every queued request (one processed record per queued
request, whatever the faults); the completion signal is set on every path
except when the failure-notification reply itself raises — precisely,
`completed` is unset iff the error-path reply raises on a request that
recorded an error. -/
theorem worker_fault_handling (db : DbState) (req : PRequest) (env : ReqEnv)
    (q : List (PRequest × ReqEnv)) :
    (∀ e, env.procRes = .error e → (processOne db req env).2.error = some e) ∧
    ((processOne db req env).2.completed = false ↔
      env.errReplyFails = true ∧ ((processOne db req env).2.error).isSome = true) ∧
    (runWorker db q).2.1.length = q.length := by
  refine ⟨?_, ?_, runWorker_length db q⟩
  · intro e he
    simp [processOne, he]
  · cases hp : env.procRes with
    | error e =>
      simp only [processOne, hp]
      cases henv : env.errReplyFails <;> simp
    | ok sid =>
      by_cases ht : pyTruthy sid = true
      · simp [processOne, hp, ht]
      · by_cases hr : env.replyFails = true
        · simp only [processOne, hp, if_neg ht, if_pos hr]
          cases henv : env.errReplyFails <;> simp
        · simp [processOne, hp, ht, hr]

/-- A processing fault whose failure notification succeeds. -/
def failOkNotifyEnv : ReqEnv := ⟨.error "boom", ⟨false, false⟩, 0, false, false⟩

/-- C3 witness: the amended fault-handling behavior at a concrete faulted
request — the fault text is recorded as the failure result and the worker
still produced one record for the one queued request. -/
theorem worker_fault_handling_witness :
    (processOne ⟨[]⟩ reqA failOkNotifyEnv).2.error = some "boom" ∧
    (runWorker ⟨[]⟩ [(reqA, failOkNotifyEnv)]).2.1.length = 1 :=
  ⟨(worker_fault_handling ⟨[]⟩ reqA failOkNotifyEnv
      [(reqA, failOkNotifyEnv)]).1 "boom" rfl,
   (worker_fault_handling ⟨[]⟩ reqA failOkNotifyEnv
      [(reqA, failOkNotifyEnv)]).2.2⟩

/-! ### Claim C2 — the cache-first submission flow -/

inductive SubOutcome where
  | cachedDelivered (mid : Nat)
  | cachedDeliverFailed (mid : Nat)
  | processed (d : DoneReq)
deriving DecidableEq, Repr

structure SubmitEnv where
  lookupEnv : DbEnv
  deliverFails : Bool
  reqEnv : ReqEnv
deriving DecidableEq, Repr

/-- The cache-first submission flow of `handle_message_with_url`
(handlers.py 796-836) for the directly queued platforms (instagram, tiktok,
facebook): look the normalized url up in the cache; on a hit, copy the stored
message to the user (reporting an error if that copy fails) with no responder
interaction; on a miss, enqueue the request, which the single worker then
processes. Returns the resulting database, the outcome, and whether the
responder was contacted. -/
def handle_message_with_url (db : DbState) (uid : Nat) (url : String)
    (pf : Platform) (env : SubmitEnv) : DbState × SubOutcome × Bool :=
  match get_video env.lookupEnv db url with
  | some (mid, _) =>
    (db,
     (if env.deliverFails then .cachedDeliverFailed mid else .cachedDelivered mid),
     false)
  | none =>
    let p := processOne db ⟨uid, url, pf⟩ env.reqEnv
    (p.1, .processed p.2, true)

def countUrl (st : DbState) (url : String) : Nat :=
  (st.videos.filter (fun r => r.url == url)).length

theorem countUrl_eq_zero_of_hasUrl_false {st : DbState} {url : String}
    (h : hasUrl st url = false) : countUrl st url = 0 := by
  unfold countUrl
  simp only [hasUrl, List.any_eq_false] at h
  rw [List.length_eq_zero, List.filter_eq_nil_iff]
  intro a ha
  simp [h a ha]

theorem find?_append_of_none {α : Type} (p : α → Bool) (l1 l2 : List α)
    (h : l1.find? p = none) : (l1 ++ l2).find? p = l2.find? p := by
  induction l1 with
  | nil => rfl
  | cons a l ih =>
    by_cases hp : p a = true
    · rw [List.find?_cons_of_pos _ hp] at h
      cases h
    · simp only [Bool.not_eq_true] at hp
      rw [List.find?_cons_of_neg _ (by simp [hp])] at h
      rw [List.cons_append, List.find?_cons_of_neg _ (by simp [hp])]
      exact ih h

theorem countUrl_snoc (st : DbState) (row : VideoRow) (url : String)
    (h : (row.url == url) = true) :
    countUrl ⟨st.videos ++ [row]⟩ url = countUrl st url + 1 := by
  unfold countUrl
  simp [List.filter_append, h]

/-- C2: for a url with no existing cache entry, one successful submission —
the processor returns a truthy storage id and the insert does not fault —
creates exactly one cache entry for that key, holding exactly the uploaded
archive reference; that submission contacted the responder; a subsequent
fault-free submission of the same key is answered from the cache with the
stored reference, contacts the responder no further and leaves the database
unchanged; and a submission whose processing produced no result, a falsy
result, or a fault creates no entry at all. -/
theorem cache_single_entry (db : DbState) (uid uid2 : Nat) (url : String)
    (pf pf2 : Platform) (env env2 : SubmitEnv) (n : Nat)
    (hurl : hasUrl db url = false)
    (hcf : env.lookupEnv.connectFault = false)
    (hproc : env.reqEnv.procRes = .ok (some n))
    (hn : n ≠ 0)
    (hdbf : env.reqEnv.dbEnv.connectFault = false)
    (henv2 : env2.lookupEnv = ⟨false, false⟩) :
    countUrl (handle_message_with_url db uid url pf env).1 url = 1 ∧
    findUrl (handle_message_with_url db uid url pf env).1 url =
      some ⟨url, n, pf, env.reqEnv.now⟩ ∧
    (handle_message_with_url db uid url pf env).2 =
      (.processed ⟨some n, none, true⟩, true) ∧
    handle_message_with_url (handle_message_with_url db uid url pf env).1
        uid2 url pf2 env2 =
      ((handle_message_with_url db uid url pf env).1,
       (if env2.deliverFails then .cachedDeliverFailed n else .cachedDelivered n),
       false) ∧
    (∀ env3 : SubmitEnv, env3.lookupEnv.connectFault = false →
      (env3.reqEnv.procRes = .ok none ∨ (∃ e, env3.reqEnv.procRes = .error e) ∨
        env3.reqEnv.procRes = .ok (some 0)) →
      (handle_message_with_url db uid url pf env3).1 = db) := by
  have hfind : findUrl db url = none := findUrl_eq_none_of_hasUrl_false hurl
  have hlook : get_video env.lookupEnv db url = none := by
    simp [get_video, get_video_raw, hcf, hfind]
  have hpt : pyTruthy (some n) = true := by simp [pyTruthy, hn]
  have hadd : add_video env.reqEnv.dbEnv db url n pf env.reqEnv.now =
      (true, ⟨db.videos ++ [⟨url, n, pf, env.reqEnv.now⟩]⟩) := by
    simp [add_video, add_video_raw, hdbf, hurl]
  have hrun : handle_message_with_url db uid url pf env =
      (⟨db.videos ++ [⟨url, n, pf, env.reqEnv.now⟩]⟩,
       .processed ⟨some n, none, true⟩, true) := by
    simp [handle_message_with_url, hlook, processOne, hproc, hpt, hadd]
  have hfind2 : findUrl ⟨db.videos ++ [⟨url, n, pf, env.reqEnv.now⟩]⟩ url =
      some ⟨url, n, pf, env.reqEnv.now⟩ := by
    unfold findUrl at hfind ⊢
    rw [show (⟨db.videos ++ [⟨url, n, pf, env.reqEnv.now⟩]⟩ : DbState).videos =
        db.videos ++ [⟨url, n, pf, env.reqEnv.now⟩] from rfl]
    rw [find?_append_of_none _ _ _ hfind]
    simp [List.find?]
  refine ⟨?_, ?_, ?_, ?_, ?_⟩
  · rw [hrun]
    rw [countUrl_snoc _ _ _ (by simp)]
    rw [countUrl_eq_zero_of_hasUrl_false hurl]
  · rw [hrun]
    exact hfind2
  · rw [hrun]
  · rw [hrun]
    have hlook2 : get_video env2.lookupEnv
        ⟨db.videos ++ [⟨url, n, pf, env.reqEnv.now⟩]⟩ url =
        some (n, env.reqEnv.now) := by
      rw [henv2]
      simp [get_video, get_video_raw, hfind2]
    simp [handle_message_with_url, hlook2]
  · intro env3 h3 hcase
    have hlook3 : get_video env3.lookupEnv db url = none := by
      simp [get_video, get_video_raw, h3, hfind]
    have hdb3 : (processOne db ⟨uid, url, pf⟩ env3.reqEnv).1 = db := by
      rcases hcase with h | ⟨e, h⟩ | h
      · simp only [processOne, h, pyTruthy]
        cases hrf : env3.reqEnv.replyFails <;> simp
      · simp [processOne, h]
      · simp only [processOne, h, pyTruthy]
        cases hrf : env3.reqEnv.replyFails <;> simp
    simp [handle_message_with_url, hlook3, hdb3]

/-- First submission environment: a successful processing producing storage
id 5, no faults anywhere. -/
def subEnv : SubmitEnv :=
  ⟨⟨false, false⟩, false, ⟨.ok (some 5), ⟨false, false⟩, 100, false, false⟩⟩

/-- Second submission environment for the same key. -/
def subEnv2 : SubmitEnv :=
  ⟨⟨false, false⟩, false, ⟨.ok (some 9), ⟨false, false⟩, 200, false, false⟩⟩

/-- C2 witness: a concrete first submission of an uncached url creates
exactly one entry, and the second submission of the same url is served from
the cache with the stored reference and no responder contact. -/
theorem cache_single_entry_witness :
    countUrl (handle_message_with_url ⟨[]⟩ 1 "u1" .instagram subEnv).1 "u1" = 1 ∧
    handle_message_with_url (handle_message_with_url ⟨[]⟩ 1 "u1" .instagram subEnv).1
        2 "u1" .tiktok subEnv2 =
      ((handle_message_with_url ⟨[]⟩ 1 "u1" .instagram subEnv).1,
       .cachedDelivered 5, false) :=
  ⟨(cache_single_entry ⟨[]⟩ 1 2 "u1" .instagram .tiktok subEnv subEnv2 5
      rfl rfl rfl (by decide) rfl rfl).1,
   (cache_single_entry ⟨[]⟩ 1 2 "u1" .instagram .tiktok subEnv subEnv2 5
      rfl rfl rfl (by decide) rfl rfl).2.2.2.1⟩

end Bittada
